import Mathlib

/-!
Verification development for the Nodemat-Chat provider-adapter and agentic
tool-calling orchestrator (`src/services/llmService.ts`, types from
`src/types.ts`).  The TypeScript source is shallowly embedded: network I/O
(`fetch`) is abstracted as an outcome-valued oracle argument, `Date.now()`
as an explicit clock argument, and promise-valued callbacks (approval,
tool execution) as total functions.  JavaScript truthiness of the fields
actually inspected by the source is modelled explicitly (`Option` for
null/undefined, empty-string and zero falsiness where the source relies
on it).
-/

namespace Nodemat

/-- The `Provider` union type from `types.ts`. -/
inductive Provider
  | groq
  | openrouter
  | openai
  | cerebras
  | gemini
  | xai
  | custom1
  | custom2
deriving DecidableEq, Repr

/-- Template interpolation of the provider id (the raw union-member string),
as in the error message built by `sendMessage`. -/
def providerIdStr : Provider → String
  | .groq => "groq"
  | .openrouter => "openrouter"
  | .openai => "openai"
  | .cerebras => "cerebras"
  | .gemini => "gemini"
  | .xai => "xai"
  | .custom1 => "custom1"
  | .custom2 => "custom2"

/-- `PROVIDER_ENDPOINTS[p].models` from `llmService.ts` (the `chat` field is
consumed only by the transport, which this embedding abstracts). -/
def providerModelsEndpoint : Provider → String
  | .groq => "https://api.groq.com/openai/v1/models"
  | .openrouter => "https://openrouter.ai/api/v1/models"
  | .openai => "https://api.openai.com/v1/models"
  | .cerebras => "https://api.cerebras.ai/v1/models"
  | .gemini => "https://generativelanguage.googleapis.com/v1beta/models"
  | .xai => "https://api.x.ai/v1/models"
  | .custom1 => ""
  | .custom2 => ""

/-- `FALLBACK_MODELS[provider] || []`: the partial record from the source,
with `[]` for the providers that have no entry. -/
def fallbackModels : Provider → List String
  | .openai => ["gpt-4o", "gpt-4o-mini", "gpt-4-turbo", "gpt-3.5-turbo", "o1-preview", "o1-mini"]
  | .gemini => ["gemini-2.0-flash-exp", "gemini-1.5-flash", "gemini-1.5-pro", "gemini-1.0-pro"]
  | _ => []

/-- JavaScript `a || d` on strings: the empty string is falsy. -/
def jsOrStr (s d : String) : String := if s = "" then d else s

/-- JavaScript `a || b` on an optional number where `0` is falsy
(used for the usage counters `prompt_tokens || input_tokens || 0`). -/
def jsOrNat (a : Option Nat) (d : Nat) : Nat :=
  match a with
  | some n => if n = 0 then d else n
  | none => d

/-- JavaScript `String.prototype.replace` with a string pattern replaces only
the first occurrence (used for `m.name.replace('models/', '')`). -/
def replaceFirst (s pat repl : String) : String :=
  match s.splitOn pat with
  | [] => s
  | [_] => s
  | h :: rest => h ++ repl ++ String.intercalate pat rest

/-- One entry of the Gemini `models` response:
`{name, supportedGenerationMethods}`. -/
structure GeminiModelEntry where
  name : String
  supportedGenerationMethods : Option (List String)
deriving DecidableEq, Repr

/-- The JSON body of a models response, restricted to the two fields the
source reads: `data.data` (mapped over `m.id`) and `data.models`. -/
structure ModelsJson where
  dataField : Option (List String)
  models : Option (List GeminiModelEntry)
deriving DecidableEq, Repr

/-- A completed HTTP response for the models request: `ok` is
`Response.ok`, `json = none` means `response.json()` rejected. -/
structure ModelsHttpResponse where
  ok : Bool
  json : Option ModelsJson
deriving DecidableEq, Repr

/-- Outcome of the models `fetch`: the promise rejected (network error) or
a response arrived. -/
inductive ModelsFetchOutcome
  | networkError
  | got (r : ModelsHttpResponse)
deriving DecidableEq, Repr

/-- Endpoint resolution in `fetchModels`: custom providers with a non-empty
`customUrl` (truthiness) use `customUrl + "/models"`. -/
def modelsEndpoint (p : Provider) (customUrl : String) : String :=
  if (p = .custom1 ∨ p = .custom2) ∧ customUrl ≠ "" then customUrl ++ "/models"
  else providerModelsEndpoint p

/-- The request URL: Gemini appends the credential as a query parameter;
other providers send it as a bearer header instead (headers are consumed
by the abstracted transport). -/
def modelsUrl (p : Provider) (key endpoint : String) : String :=
  if p = .gemini then endpoint ++ "?key=" ++ key else endpoint

/-- `fetchModels` from `llmService.ts`.  The `fetch` call is abstracted by
`http`, a map from request URL to outcome.  The whole source body sits in a
`try` whose `catch` returns the fallback list, so the embedding is total:
every path yields a list. -/
def fetchModels (p : Provider) (key customUrl : String)
    (http : String → ModelsFetchOutcome) : List String :=
  let endpoint := modelsEndpoint p customUrl
  if endpoint = "" then fallbackModels p
  else
    match http (modelsUrl p key endpoint) with
    | .networkError => fallbackModels p
    | .got r =>
      if ¬ r.ok then fallbackModels p
      else
        match r.json with
        | none => fallbackModels p
        | some j =>
          if p = .gemini then
            match j.models with
            | some ms =>
              (ms.filter fun m =>
                  (m.supportedGenerationMethods.getD []).contains "generateContent").map
                fun m => replaceFirst m.name "models/" ""
            | none => fallbackModels p
          else j.dataField.getD []

/-- `MCPTool` from `types.ts`; `inputSchema` is an opaque JSON schema,
carried as its serialized text. -/
structure MCPTool where
  name : String
  description : Option String
  inputSchema : String
deriving DecidableEq, Repr

/-- `MCPServer` from `types.ts`, restricted to the fields `sendMessage` and
the MCP client read. -/
structure MCPServer where
  id : String
  url : String
  authToken : String
  status : String
  tools : List MCPTool
  enabledTools : List String
deriving DecidableEq, Repr

/-- The argument value handed to the approval callback and the tool call:
either the raw JSON text that `JSON.parse` accepted, or the
`{error: "Invalid JSON args"}` substitute built on parse failure. -/
inductive ToolArgs
  | parsed (raw : String)
  | invalid
deriving DecidableEq, Repr

/-- `JSON.parse(fnArgsStr)` with its `catch`: `jsonOk` abstracts whether the
text parses. -/
def argsOf (jsonOk : String → Bool) (raw : String) : ToolArgs :=
  if jsonOk raw then ToolArgs.parsed raw else ToolArgs.invalid

/-- One part of `result.content` in a `tools/call` response.  `text` is the
part's `text` field when present; `serialized` carries `JSON.stringify` of
the whole part (opaque to the embedding). -/
structure MCPContentPart where
  text : Option String
  serialized : String
deriving DecidableEq, Repr

/-- `result` of a JSON-RPC tool response; `serialized` is
`JSON.stringify(data.result)`. -/
structure RpcResult where
  content : Option (List MCPContentPart)
  serialized : String
deriving DecidableEq, Repr

/-- The JSON-RPC `error` member. -/
structure RpcError where
  message : String
deriving DecidableEq, Repr

/-- A parsed `tools/call` response body; `serialized` is
`JSON.stringify(data)`. -/
structure RpcData where
  error : Option RpcError
  result : Option RpcResult
  serialized : String
deriving DecidableEq, Repr

/-- An HTTP response for the MCP request: `bodyText` is what
`response.text()` yields on the non-ok path, `json = none` means
`response.json()` rejected. -/
structure McpHttpResponse where
  status : Nat
  bodyText : String
  json : Option RpcData
deriving DecidableEq, Repr

/-- Outcome of the MCP `fetch`. -/
inductive McpHttpOutcome
  | networkError (message : String)
  | response (r : McpHttpResponse)
deriving DecidableEq, Repr

/-- The `tools/call` request as the transport sees it (the JSON-RPC id
`Date.now()` is correlation-only and unread by the client, so omitted). -/
structure McpRequest where
  url : String
  bearer : Option String
  toolName : String
  args : ToolArgs
deriving Repr

/-- `data.result.content.map(c => c.text || JSON.stringify(c)).join('\n')`:
a part with a missing or empty (falsy) `text` contributes its
serialization. -/
def flattenContent (parts : List MCPContentPart) : String :=
  String.intercalate "\n"
    (parts.map fun c =>
      match c.text with
      | some t => if t = "" then c.serialized else t
      | none => c.serialized)

/-- The request value `executeMCPToolCall` builds: the server URL, the
optional bearer header (`if (server.authToken)` — empty string falsy), and
the `tools/call` params. -/
def mcpRequestOf (server : MCPServer) (toolName : String) (args : ToolArgs) : McpRequest :=
  { url := server.url
    bearer := if server.authToken = "" then none else some server.authToken
    toolName := toolName
    args := args }

/-- `executeMCPToolCall` from `llmService.ts`.  `fetch` is abstracted by
`http`; thrown `Error`s become `Except.error` carrying the message.  A
`result.content` that is a truthy non-array (which would make `.map` throw)
is outside the model, as the spec's contract only covers sequences of typed
parts. -/
def executeMCPToolCall (http : McpRequest → McpHttpOutcome) (server : MCPServer)
    (toolName : String) (args : ToolArgs) : Except String String :=
  match http (mcpRequestOf server toolName args) with
  | .networkError m => Except.error m
  | .response r =>
    if ¬ (200 ≤ r.status ∧ r.status < 300) then
      Except.error ("MCP Server Error (" ++ toString r.status ++ "): " ++ r.bodyText)
    else
      match r.json with
      | none => Except.error "Unexpected token in JSON response"
      | some d =>
        match d.error with
        | some e => Except.error e.message
        | none =>
          match d.result with
          | some res =>
            match res.content with
            | some parts => Except.ok (flattenContent parts)
            | none => Except.ok res.serialized
          | none => Except.ok d.serialized

/-- Modelled from the claim's words, for refinement comparison only (C8):
"each text part contributes its text field and each non-text part its JSON
serialization". -/
def claimFlattenContent (parts : List MCPContentPart) : String :=
  String.intercalate "\n"
    (parts.map fun c =>
      match c.text with
      | some t => t
      | none => c.serialized)

/-- The `role` union of `Message` in `types.ts`. -/
inductive Role
  | user
  | model
  | system
  | tool
  | assistant
deriving DecidableEq, Repr

/-- `Attachment` from `types.ts` (`extractedText` is unread by this core). -/
structure Attachment where
  name : String
  type : String
  data : String
deriving DecidableEq, Repr

/-- A wire-level tool call as the orchestration loop reads it: `id`,
`function.name` and `function.arguments` (the constant `type: 'function'`
tag is never read and is omitted). -/
structure WireToolCall where
  id : String
  functionName : String
  functionArguments : String
deriving DecidableEq, Repr

/-- The `usage` object of a provider response, fields optional as on the
wire. -/
structure WireUsage where
  prompt_tokens : Option Nat
  completion_tokens : Option Nat
  input_tokens : Option Nat
  output_tokens : Option Nat
  total_tokens : Option Nat
deriving DecidableEq, Repr

/-- The normalized `usage` stored on a canonical `Message`. -/
structure Usage where
  input : Nat
  output : Nat
  total : Nat
deriving DecidableEq, Repr

/-- One entry of `choice.images` (only `image_url.url` is read). -/
structure WireImage where
  imageUrl : Option String
deriving DecidableEq, Repr

/-- `choices[0]` of an OpenAI-compatible response, restricted to the fields
the loop reads. -/
structure WireChoice where
  messageContent : Option String
  messageToolCalls : Option (List WireToolCall)
  images : Option (List WireImage)
deriving DecidableEq, Repr

/-- An OpenAI-compatible chat response. -/
structure WireResponse where
  id : Option String
  choices : List WireChoice
  usage : Option WireUsage
deriving DecidableEq, Repr

/-- One part of a Gemini candidate's `content.parts`; the source inspects
`p.text` and `p.functionCall` independently (truthiness). -/
structure GeminiFunctionCall where
  name : String
  argsJson : String
deriving DecidableEq, Repr

/-- A Gemini response part. -/
structure GeminiRespPart where
  text : Option String := none
  functionCall : Option GeminiFunctionCall := none
deriving DecidableEq, Repr

/-- A Gemini candidate: `contentParts = none` models a candidate whose
`content` or `content.parts` is missing (`candidate?.content?.parts`). -/
structure GeminiCandidate where
  contentParts : Option (List GeminiRespPart)
deriving DecidableEq, Repr

/-- A Gemini `generateContent` response (the source reads only
`candidates`; `data.usage` and `data.id`, read later by the loop, do not
exist on this shape and evaluate to `undefined`). -/
structure GeminiResponse where
  candidates : List GeminiCandidate
deriving DecidableEq, Repr

/-- `parseGeminiResponse` from `llmService.ts`.  `clock` gives the value of
`Date.now()` for the mapping of the i-th function-call part; the source
builds every local id as `gemini-` followed by that value, with no
per-part disambiguator. -/
def parseGeminiResponse (clock : Nat → Nat) (data : GeminiResponse) :
    String × Option (List WireToolCall) :=
  let parts := ((data.candidates.head?).bind fun c => c.contentParts).getD []
  let textParts := parts.filterMap fun p =>
    match p.text with
    | some t => if t = "" then none else some t
    | none => none
  let functionCalls := parts.filterMap fun p => p.functionCall
  let toolCalls :=
    if functionCalls.length > 0 then
      some ((functionCalls.enum).map fun pr =>
        ({ id := "gemini-" ++ toString (clock pr.1)
           functionName := pr.2.name
           functionArguments := pr.2.argsJson } : WireToolCall))
    else none
  (String.intercalate "\n" textParts, toolCalls)

/-- API-level message content: a plain string, `null`, or the multimodal
part array built for user messages with attachments. -/
inductive ContentPart
  | text (t : String)
  | image (url : String)
deriving DecidableEq, Repr

/-- Content of an API message. -/
inductive ApiContent
  | nullContent
  | str (s : String)
  | parts (l : List ContentPart)
deriving DecidableEq, Repr

/-- A message in the wire-format working history (`apiMessages`). -/
structure ApiMessage where
  role : String
  content : ApiContent
  tool_call_id : Option String := none
  name : Option String := none
  tool_calls : Option (List WireToolCall) := none
deriving DecidableEq, Repr

/-- `m.content` (a string or `null`) as API content. -/
def contentToApi : Option String → ApiContent
  | some s => ApiContent.str s
  | none => ApiContent.nullContent

/-- The text of `contentArray[0]` after the in-place `+=` of every non-image
attachment, in attachment order. -/
def attachmentText (base : String) (atts : List Attachment) : String :=
  atts.foldl
    (fun t att =>
      if att.type.startsWith "image/" then t
      else
        t ++ "\n\n--- Archivo Adjunto: " ++ att.name ++ " ---\n" ++ att.data ++
          "\n-------------------")
    base

/-- The multimodal content array for a user message with attachments: the
leading text part (with non-image attachments appended) followed by one
`image_url` part per image attachment, in order. -/
def userContentParts (base : String) (atts : List Attachment) : List ContentPart :=
  ContentPart.text (attachmentText base atts) ::
    (atts.filter fun a => a.type.startsWith "image/").map fun a => ContentPart.image a.data

/-- `contentPayload` for the current user message. -/
def userApiContent (content : String) (atts : List Attachment) : ApiContent :=
  if atts.length > 0 then ApiContent.parts (userContentParts content atts)
  else ApiContent.str content

/-- A tool definition pushed onto `activeToolsDefs`: the inner `function`
object `{name, description, parameters: inputSchema}` (the constant
`type: "function"` wrapper tag is never read and is omitted). -/
structure ToolDef where
  name : String
  description : Option String
  parameters : String
deriving DecidableEq, Repr

/-- A part of a Gemini request content entry. -/
inductive GeminiReqPart
  | text (t : String)
  | inlineData (mimeType : String) (data : String)
deriving DecidableEq, Repr

/-- One entry of the Gemini request `contents`. -/
structure GeminiContent where
  role : String
  parts : List GeminiReqPart
deriving DecidableEq, Repr

/-- The Gemini request payload built by `buildGeminiRequest`. -/
structure GeminiRequest where
  contents : List GeminiContent
  systemInstruction : Option ApiContent
  tools : Option (List ToolDef)
deriving DecidableEq, Repr

/-- The regex `^data:([^;]+);base64,(.+)$` of `buildGeminiRequest`: a
non-empty semicolon-free mime type, the literal `;base64,`, then a
non-empty payload.  (The JavaScript `.` does not match a newline; base64
payloads contain none, so that restriction is not modelled.) -/
def parseDataUrl (s : String) : Option (String × String) :=
  if s.startsWith "data:" then
    let rest := s.drop 5
    let mime := rest.takeWhile fun c => c ≠ ';'
    let after := rest.drop mime.length
    if mime ≠ "" ∧ after.startsWith ";base64," then
      let payload := after.drop 8
      if payload ≠ "" then some (mime, payload) else none
    else none
  else none

/-- The parts array for one non-system API message in `buildGeminiRequest`:
string content becomes one text part; array content maps text parts and
inlines image parts whose data URL parses to an `image/*` mime type;
`null` content (neither string nor array) yields no parts. -/
def geminiPartsOf (c : ApiContent) : List GeminiReqPart :=
  match c with
  | .str s => [GeminiReqPart.text s]
  | .nullContent => []
  | .parts l =>
    l.filterMap fun part =>
      match part with
      | .text t => some (GeminiReqPart.text t)
      | .image url =>
        match parseDataUrl url with
        | some (mimeType, data) =>
          if mimeType.startsWith "image/" then some (GeminiReqPart.inlineData mimeType data)
          else none
        | none => none

/-- The truthy `content` of the first system-role message, as
`buildGeminiRequest` reads it (`find(...)?.content` then a truthiness
check: `null` and the empty string are falsy, an array is truthy). -/
def geminiSystemInstruction (apiMessages : List ApiMessage) : Option ApiContent :=
  match apiMessages.find? fun m => m.role == "system" with
  | some m =>
    match m.content with
    | .str s => if s = "" then none else some (ApiContent.str s)
    | .parts l => some (ApiContent.parts l)
    | .nullContent => none
  | none => none

/-- `buildGeminiRequest` from `llmService.ts`: system-role messages are
filtered out of `contents`, every non-assistant role (including `tool`)
maps to `user`, and the system instruction is taken from the first
system-role message only. -/
def buildGeminiRequest (apiMessages : List ApiMessage) (tools : List ToolDef) :
    GeminiRequest :=
  { contents :=
      (apiMessages.filter fun m => m.role ≠ "system").map fun m =>
        { role := if m.role = "assistant" then "model" else "user"
          parts := geminiPartsOf m.content }
    systemInstruction := geminiSystemInstruction apiMessages
    tools := if tools.length > 0 then some tools else none }

/-- The request payload `callLLMProvider` builds and hands to `fetch` (and
stores in the debug envelope): the Gemini shape, or the OpenAI-compatible
`{model, messages, tools?, tool_choice?}` shape used by every other
provider (including the custom ones, which differ only in endpoint). -/
inductive RequestPayload
  | openaiReq (model : String) (messages : List ApiMessage) (tools : Option (List ToolDef))
  | geminiReq (req : GeminiRequest)
deriving DecidableEq, Repr

/-- The parsed JSON body of a provider response, per wire family. -/
inductive ProviderResponse
  | openaiR (r : WireResponse)
  | geminiR (g : GeminiResponse)
deriving DecidableEq, Repr

/-- The debug envelope `rawDebug` stored on every final message. -/
structure RawDebug where
  requestId : String
  provider : Provider
  model : String
  requestPayload : RequestPayload
  responsePayload : ProviderResponse
deriving DecidableEq, Repr

/-- `Message` from `types.ts`, restricted to the fields this core reads or
writes. -/
structure Message where
  id : String
  role : Role
  content : Option String
  timestamp : Nat
  attachments : List Attachment := []
  toolCalls : Option (List WireToolCall) := none
  tool_call_id : Option String := none
  name : Option String := none
  usage : Option Usage := none
  rawDebug : Option RawDebug := none
deriving DecidableEq, Repr

/-- The per-message step of the history-to-API conversion in `sendMessage`:
tool, model (assistant) and user roles map to one API message each; a
history message whose role is `system` or `assistant` matches no branch
and is dropped. -/
def msgToApi (m : Message) : Option ApiMessage :=
  match m.role with
  | .tool =>
    some
      { role := "tool", content := contentToApi m.content
        tool_call_id := m.tool_call_id, name := m.name }
  | .model =>
    some { role := "assistant", content := contentToApi m.content, tool_calls := m.toolCalls }
  | .user =>
    some
      (if m.attachments.length > 0 then
        { role := "user"
          content := ApiContent.parts (userContentParts (m.content.getD "") m.attachments) }
      else { role := "user", content := contentToApi m.content })
  | .system => none
  | .assistant => none

/-- Steps 2 and 3 of `sendMessage`: the synthesized system message, the
converted history, then the current user message. -/
def buildApiMessages (systemInstruction : String) (history : List Message)
    (currentMessage : String) (attachments : List Attachment) : List ApiMessage :=
  ({ role := "system", content := ApiContent.str systemInstruction } : ApiMessage) ::
    history.filterMap msgToApi ++
      [{ role := "user", content := userApiContent currentMessage attachments }]

/-- `AppSettings` from `types.ts`, restricted to the fields `sendMessage`
reads. -/
structure AppSettings where
  groqKey : String := ""
  groqModel : String := ""
  openRouterKey : String := ""
  openRouterModel : String := ""
  openaiKey : String := ""
  openaiModel : String := ""
  cerebrasKey : String := ""
  cerebrasModel : String := ""
  geminiKey : String := ""
  geminiModel : String := ""
  xaiKey : String := ""
  xaiModel : String := ""
  custom1Key : String := ""
  custom1Url : String := ""
  custom1Model : String := ""
  custom2Key : String := ""
  custom2Url : String := ""
  custom2Model : String := ""
  systemPrompt : String := ""
  activeProvider : Provider
  mcpServers : List MCPServer := []
deriving Repr

/-- `providerKeyMap[activeProvider].key`. -/
def keyOf (s : AppSettings) : String :=
  match s.activeProvider with
  | .groq => s.groqKey
  | .openrouter => s.openRouterKey
  | .openai => s.openaiKey
  | .cerebras => s.cerebrasKey
  | .gemini => s.geminiKey
  | .xai => s.xaiKey
  | .custom1 => s.custom1Key
  | .custom2 => s.custom2Key

/-- `providerKeyMap[activeProvider].model`, with the per-provider `||`
defaults (custom providers have none). -/
def modelOf (s : AppSettings) : String :=
  match s.activeProvider with
  | .groq => jsOrStr s.groqModel "llama3-8b-8192"
  | .openrouter => jsOrStr s.openRouterModel "openai/gpt-3.5-turbo"
  | .openai => jsOrStr s.openaiModel "gpt-4o-mini"
  | .cerebras => jsOrStr s.cerebrasModel "llama3.1-8b"
  | .gemini => jsOrStr s.geminiModel "gemini-1.5-flash"
  | .xai => jsOrStr s.xaiModel "grok-beta"
  | .custom1 => s.custom1Model
  | .custom2 => s.custom2Model

/-- The tools of a server filtered to its `enabledTools`, in order. -/
def enabledToolsOf (s : MCPServer) : List MCPTool :=
  s.tools.filter fun t => s.enabledTools.contains t.name

/-- The `toolMap` built in `sendMessage`: iterating servers in order, every
enabled tool name of a connected server is mapped to that server, later
servers overwriting earlier ones. -/
def buildToolMap (servers : List MCPServer) (n : String) : Option MCPServer :=
  servers.foldl
    (fun acc s =>
      if s.status = "connected" then
        if (enabledToolsOf s).any fun t => t.name == n then some s else acc
      else acc)
    none

/-- `activeToolsDefs` built in `sendMessage`: the enabled tool definitions
of the connected servers, in iteration order. -/
def buildActiveToolDefs (servers : List MCPServer) : List ToolDef :=
  servers.foldl
    (fun acc s =>
      if s.status = "connected" then
        acc ++
          (enabledToolsOf s).map fun t =>
            ({ name := t.name, description := t.description, parameters := t.inputSchema } :
              ToolDef)
      else acc)
    []

/-- The default system prompt of `sendMessage`. -/
def DEFAULT_SYSTEM_PROMPT : String :=
  "Eres Nodemat AI. Responde en el idioma del usuario. Si usas herramientas, usa la información que te devuelven para construir tu respuesta final."

/-- The note appended to the system prompt when any tool is enabled. -/
def TOOLS_NOTE : String :=
  "\n\nTienes acceso a herramientas locales. Úsalas cuando sea necesario."

/-- The synthesized system instruction of one `sendMessage` invocation. -/
def sysInstrOf (s : AppSettings) : String :=
  jsOrStr s.systemPrompt DEFAULT_SYSTEM_PROMPT ++
    (if (buildActiveToolDefs s.mcpServers).length > 0 then TOOLS_NOTE else "")

/-- The environment of one orchestration run: the approval callback, the
tool-execution transport (`executeMCPToolCall` with its own `fetch`, as an
abstract total function returning the resolved string or the rejection
message), `JSON.parse` success on argument text, `Date.now()` for message
stamping, and the `Date.now()` samples taken inside `parseGeminiResponse`. -/
structure Env where
  approval : String → ToolArgs → Bool
  exec : MCPServer → String → ToolArgs → Except String String
  jsonOk : String → Bool
  now : Nat
  gclock : Nat → Nat

/-- The processing of one tool call inside the loop: parse the arguments,
look the name up in the tool map, gate on approval, execute, and build the
tool-role message that is appended to the working history. -/
def processToolCall (toolMap : String → Option MCPServer)
    (approval : String → ToolArgs → Bool)
    (exec : MCPServer → String → ToolArgs → Except String String)
    (jsonOk : String → Bool) (tc : WireToolCall) : ApiMessage :=
  let args := argsOf jsonOk tc.functionArguments
  let executionResult :=
    match toolMap tc.functionName with
    | some srv =>
      if approval tc.functionName args then
        match exec srv tc.functionName args with
        | Except.ok s => s
        | Except.error m => "Error executing tool: " ++ m
      else "User denied execution of this tool."
    | none => "Error: Tool not found or server disconnected."
  { role := "tool", content := ApiContent.str executionResult
    tool_call_id := some tc.id, name := some tc.functionName }

/-- The per-provider response parsing inside the loop: Gemini responses go
through `parseGeminiResponse` (total, optional chaining); every other
provider reads `data.choices[0].message`, which in JavaScript throws a
`TypeError` when `choices` is empty or the body has the wrong shape. -/
def parseTurn (p : Provider) (gclock : Nat → Nat) (resp : ProviderResponse) :
    Except String (String × Option (List WireToolCall)) :=
  match p with
  | .gemini =>
    match resp with
    | .geminiR g => Except.ok (parseGeminiResponse gclock g)
    | .openaiR _ => Except.ok ("", none)
  | _ =>
    match resp with
    | .openaiR r =>
      match r.choices.head? with
      | some c => Except.ok (c.messageContent.getD "", c.messageToolCalls)
      | none => Except.error "TypeError: cannot read properties of undefined"
    | .geminiR _ => Except.error "TypeError: cannot read properties of undefined"

/-- `data.id`, as read when building the debug envelope. -/
def respId : ProviderResponse → Option String
  | .openaiR r => r.id
  | .geminiR _ => none

/-- `data.usage`, as read when building the final message. -/
def respUsage : ProviderResponse → Option WireUsage
  | .openaiR r => r.usage
  | .geminiR _ => none

/-- `data.choices?.[0]?.images`, read only in the completion branch. -/
def respImages : ProviderResponse → Option (List WireImage)
  | .openaiR r => (r.choices.head?).bind fun c => c.images
  | .geminiR _ => none

/-- The usage counters normalization (`|| 0` chains, `0` falsy). -/
def usageFromWire (u : WireUsage) : Usage :=
  { input := jsOrNat u.prompt_tokens (jsOrNat u.input_tokens 0)
    output := jsOrNat u.completion_tokens (jsOrNat u.output_tokens 0)
    total := jsOrNat u.total_tokens 0 }

/-- The markdown image references extracted from `choice.images` (entries
with a falsy `image_url.url` are skipped). -/
def imageMarkdownParts (imgs : List WireImage) : List String :=
  imgs.filterMap fun i =>
    match i.imageUrl with
    | some u => if u = "" then none else some ("![Imagen Generada](" ++ u ++ ")")
    | none => none

/-- The final message text: for OpenRouter and OpenAI, generated-image
references from `choice.images` are appended to the response text (with
the empty text falsy-replaced); other providers keep the text as is. -/
def finalContentOf (p : Provider) (resp : ProviderResponse) (messageContent : String) :
    String :=
  if p = .openrouter ∨ p = .openai then
    match respImages resp with
    | some imgs =>
      if imgs.length > 0 then
        let ip := imageMarkdownParts imgs
        if ip.length > 0 then
          if messageContent ≠ "" then
            messageContent ++ "\n\n" ++ String.intercalate "\n\n" ip
          else String.intercalate "\n\n" ip
        else messageContent
      else messageContent
    | none => messageContent
  else messageContent

/-- The request payload of one provider call, as `callLLMProvider` builds
it from the working history at that call. -/
def buildRequestPayload (p : Provider) (model : String) (apiMessages : List ApiMessage)
    (tools : List ToolDef) : RequestPayload :=
  match p with
  | .gemini => RequestPayload.geminiReq (buildGeminiRequest apiMessages tools)
  | _ =>
    RequestPayload.openaiReq model apiMessages
      (if tools.length > 0 then some tools else none)

/-- The final assistant-role `Message` built in the completion branch,
carrying the (image-augmented) text, the normalized usage counters and the
debug envelope. -/
def mkFinalMsg (p : Provider) (model : String) (now : Nat)
    (requestPayload : RequestPayload) (resp : ProviderResponse)
    (messageContent : String) : Message :=
  { id := toString now
    role := Role.model
    content := some (finalContentOf p resp messageContent)
    timestamp := now
    usage := (respUsage resp).map usageFromWire
    rawDebug :=
      some
        { requestId :=
            match respId resp with
            | some s => if s = "" then "req-" ++ toString now else s
            | none => "req-" ++ toString now
          provider := p, model := model
          requestPayload := requestPayload, responsePayload := resp } }

/-- The terminal message pushed after the loop when `turns >= 5`. -/
def limitMsg (now : Nat) : Message :=
  { id := toString now
    role := Role.model
    content := some "⚠️ Límite de ejecución de herramientas alcanzado."
    timestamp := now }

/-- The `while (keepGoing && turns < 5)` loop of `sendMessage`, with
`fuel = 5 - turns` (the cap is the literal constant 5 in the source).
`oracle n` is the parsed body of the (n+1)-th provider call, or the error
thrown by `callLLMProvider`.  The result carries the generated messages,
the trace of working histories handed to each successful provider call,
and the `turns >= 5` flag checked after the loop. -/
def runLoop (p : Provider) (model : String) (env : Env)
    (toolMap : String → Option MCPServer) (toolDefs : List ToolDef)
    (oracle : Nat → Except String ProviderResponse) :
    Nat → Nat → List ApiMessage → List Message → List (List ApiMessage) →
      Except String (List Message × List (List ApiMessage) × Bool)
  | 0, _, _, acc, trace => Except.ok (acc, trace, true)
  | fuel + 1, callIdx, api, acc, trace =>
    match oracle callIdx with
    | Except.error e => Except.error e
    | Except.ok data =>
      match parseTurn p env.gclock data with
      | Except.error e => Except.error e
      | Except.ok (content, tcOpt) =>
        if (tcOpt.getD []).length > 0 then
          let tcs := tcOpt.getD []
          let api' :=
            api ++
              ({ role := "assistant", content := ApiContent.str content,
                  tool_calls := tcOpt } : ApiMessage) ::
                tcs.map (processToolCall toolMap env.approval env.exec env.jsonOk)
          runLoop p model env toolMap toolDefs oracle fuel (callIdx + 1) api' acc
            (trace ++ [api])
        else
          Except.ok
            (acc ++
              [mkFinalMsg p model env.now (buildRequestPayload p model api toolDefs) data
                  content],
              trace ++ [api], decide (fuel = 0))

/-- `sendMessage` up to the post-loop limit check: the credential guard,
the tool map and system instruction synthesis, the working-history
construction, and the loop. -/
def sendMessageCore (settings : AppSettings) (history : List Message)
    (currentMessage : String) (attachments : List Attachment) (env : Env)
    (oracle : Nat → Except String ProviderResponse) :
    Except String (List Message × List (List ApiMessage) × Bool) :=
  let key := keyOf settings
  if key = "" then
    Except.error
      ("La API Key para " ++ providerIdStr settings.activeProvider ++ " no está configurada.")
  else
    runLoop settings.activeProvider (modelOf settings) env
      (buildToolMap settings.mcpServers) (buildActiveToolDefs settings.mcpServers) oracle 5 0
      (buildApiMessages (sysInstrOf settings) history currentMessage attachments) [] []

/-- `sendMessage` from `llmService.ts`: the loop result, with the terminal
limit message appended whenever the loop exited with `turns >= 5`. -/
def sendMessage (settings : AppSettings) (history : List Message)
    (currentMessage : String) (attachments : List Attachment) (env : Env)
    (oracle : Nat → Except String ProviderResponse) : Except String (List Message) :=
  match sendMessageCore settings history currentMessage attachments env oracle with
  | Except.error e => Except.error e
  | Except.ok (acc, _, ranOut) =>
    Except.ok (if ranOut then acc ++ [limitMsg env.now] else acc)

/-- Whether one provider-call outcome is a successfully parsed response
carrying at least one tool call (the loop's branch condition). -/
def respHasToolCalls (p : Provider) (gclock : Nat → Nat)
    (r : Except String ProviderResponse) : Bool :=
  match r with
  | Except.error _ => false
  | Except.ok d =>
    match parseTurn p gclock d with
    | Except.error _ => false
    | Except.ok (_, tcOpt) => decide ((tcOpt.getD []).length > 0)

/-- Whether one provider-call outcome is a successfully parsed response
carrying no tool calls (a final answer). -/
def respParsedFree (p : Provider) (gclock : Nat → Nat)
    (r : Except String ProviderResponse) : Bool :=
  match r with
  | Except.error _ => false
  | Except.ok d =>
    match parseTurn p gclock d with
    | Except.error _ => false
    | Except.ok (_, tcOpt) => decide ((tcOpt.getD []).length = 0)

/-! Concrete sample inputs, used by the witnesses and counterexamples. -/

/-- A sample MCP tool. -/
def sampleTool : MCPTool :=
  { name := "search", description := some "web search", inputSchema := "\x7b\x7d" }

/-- A sample connected MCP server exposing `search`, with it enabled. -/
def sampleServer : MCPServer :=
  { id := "srv1", url := "http://localhost:8000/messages", authToken := ""
    status := "connected", tools := [sampleTool], enabledTools := ["search"] }

/-- A sample wire tool call for the enabled tool. -/
def sampleTc : WireToolCall :=
  { id := "a", functionName := "search", functionArguments := "\x7b\"q\":\"x\"\x7d" }

/-- A sample wire tool call whose name no server exposes. -/
def sampleTcUnknown : WireToolCall :=
  { id := "b", functionName := "ghost", functionArguments := "\x7b\x7d" }

/-- A sample environment that approves everything. -/
def sampleEnv : Env :=
  { approval := fun _ _ => true, exec := fun _ _ _ => Except.ok "result-text"
    jsonOk := fun _ => true, now := 7, gclock := fun _ => 0 }

/-- Sample settings: Groq active with a configured key and no tools. -/
def sampleSettings : AppSettings := { activeProvider := Provider.groq, groqKey := "k" }

/-- Sample settings whose active provider has an empty credential. -/
def sampleSettingsNoKey : AppSettings := { activeProvider := Provider.groq, groqKey := "" }

/-- A provider response requesting one tool call. -/
def sampleToolResp : ProviderResponse :=
  ProviderResponse.openaiR
    { id := some "r1"
      choices :=
        [{ messageContent := some "calling", messageToolCalls := some [sampleTc]
           images := none }]
      usage := none }

/-- A provider response carrying a final answer and usage counters. -/
def sampleFreeResp : ProviderResponse :=
  ProviderResponse.openaiR
    { id := some "r2"
      choices := [{ messageContent := some "done", messageToolCalls := none, images := none }]
      usage :=
        some
          { prompt_tokens := some 3, completion_tokens := some 4, input_tokens := none
            output_tokens := none, total_tokens := some 7 } }

/-- An oracle whose every response requests another tool call. -/
def oracleAllTools : Nat → Except String ProviderResponse := fun _ =>
  Except.ok sampleToolResp

/-- An oracle whose first four responses request a tool call and whose
fifth is a final answer. -/
def oracleFreeAtFifth : Nat → Except String ProviderResponse := fun n =>
  if n < 4 then Except.ok sampleToolResp else Except.ok sampleFreeResp

/-- An oracle that answers immediately with a final answer. -/
def oracleFreeNow : Nat → Except String ProviderResponse := fun _ =>
  Except.ok sampleFreeResp

/-- A Gemini response whose single candidate carries two function-call
parts (and no remote ids). -/
def geminiTwoCalls : GeminiResponse :=
  { candidates :=
      [{ contentParts :=
          some
            [{ functionCall := some { name := "searchA", argsJson := "\x7b\x7d" } },
              { functionCall := some { name := "searchB", argsJson := "\x7b\x7d" } }] }] }

/-- A typed text part whose `text` field is the empty string, with its
JSON serialization. -/
def c8Part : MCPContentPart :=
  { text := some "", serialized := "\x7b\"type\":\"text\",\"text\":\"\"\x7d" }

/-- An MCP transport answering 200 with a result whose content is the
single empty-text part. -/
def c8Http : McpRequest → McpHttpOutcome := fun _ =>
  McpHttpOutcome.response
    { status := 200, bodyText := ""
      json :=
        some
          { error := none
            result := some { content := some [c8Part], serialized := "RS" }
            serialized := "DS" } }

/-! Theorems. -/

/-- C4: for every provider, credential and override URL, `fetchModels`
never raises (the embedding is a total function into `List String`), and
on a transport failure, a non-success HTTP status, or an unparseable
response body it returns the provider's static fallback list. -/
theorem fetchModels_failure_returns_fallback (p : Provider) (key customUrl : String)
    (http : String → ModelsFetchOutcome)
    (hfail :
      http (modelsUrl p key (modelsEndpoint p customUrl)) = ModelsFetchOutcome.networkError ∨
        ∃ r, http (modelsUrl p key (modelsEndpoint p customUrl)) = ModelsFetchOutcome.got r ∧
          (r.ok = false ∨ r.json = none)) :
    fetchModels p key customUrl http = fallbackModels p := by
  unfold fetchModels
  by_cases hemp : modelsEndpoint p customUrl = ""
  · simp [hemp]
  · simp only [hemp, if_false]
    rcases hfail with h | ⟨r, h, hr⟩
    · rw [h]
    · rw [h]
      rcases hr with hok | hjson
      · simp [hok]
      · cases hok : r.ok
        · simp [hok]
        · simp [hok, hjson]

/-- Witness for C4 at a concrete failing outcome (HTTP 500-style non-ok
response for OpenAI). -/
theorem fetchModels_failure_returns_fallback_witness :
    fetchModels Provider.openai "k" ""
        (fun _ => ModelsFetchOutcome.got { ok := false, json := none }) =
      fallbackModels Provider.openai :=
  fetchModels_failure_returns_fallback Provider.openai "k" "" _
    (Or.inr ⟨_, rfl, Or.inl rfl⟩)

/-- C5: for a tool call whose name the tool map resolves, a `false`
approval yields the tool-result message with the fixed denial string, for
every possible behaviour of the tool-execution transport (so no request
reaches the tool server). -/
theorem denied_tool_fixed_string_no_execution (toolMap : String → Option MCPServer)
    (approval : String → ToolArgs → Bool) (jsonOk : String → Bool) (tc : WireToolCall)
    (srv : MCPServer) (henabled : toolMap tc.functionName = some srv)
    (hdenied : approval tc.functionName (argsOf jsonOk tc.functionArguments) = false) :
    ∀ exec, processToolCall toolMap approval exec jsonOk tc =
      { role := "tool", content := ApiContent.str "User denied execution of this tool."
        tool_call_id := some tc.id, name := some tc.functionName } := by
  intro exec
  simp [processToolCall, henabled, hdenied]

/-- Witness for C5: the sample server with approval denied. -/
theorem denied_tool_fixed_string_no_execution_witness :
    processToolCall (fun n => if n == "search" then some sampleServer else none)
        (fun _ _ => false) (fun _ _ _ => Except.ok "result-text") (fun _ => true)
        sampleTc =
      { role := "tool", content := ApiContent.str "User denied execution of this tool."
        tool_call_id := some "a", name := some "search" } :=
  denied_tool_fixed_string_no_execution
    (fun n => if n == "search" then some sampleServer else none) (fun _ _ => false)
    (fun _ => true) sampleTc sampleServer (by decide) (by decide)
    (fun _ _ _ => Except.ok "result-text")

/-- A foldl over servers that never fires leaves the accumulator. -/
theorem buildToolMap_eq_none (servers : List MCPServer) (n : String)
    (h : ∀ s ∈ servers,
      ¬(s.status = "connected" ∧ ((enabledToolsOf s).any fun t => t.name == n) = true)) :
    buildToolMap servers n = none := by
  unfold buildToolMap
  induction servers with
  | nil => rfl
  | cons s rest ih =>
    have hs := h s (List.mem_cons_self s rest)
    have hstep :
        (if s.status = "connected" then
            if (enabledToolsOf s).any (fun t => t.name == n) then some s else (none : Option MCPServer)
          else none) = none := by
      by_cases hc : s.status = "connected"
      · have : ((enabledToolsOf s).any fun t => t.name == n) = false := by
          cases hany : (enabledToolsOf s).any fun t => t.name == n
          · rfl
          · exact absurd ⟨hc, hany⟩ hs
        simp [hc, this]
      · simp [hc]
    simp only [List.foldl_cons]
    rw [hstep]
    exact ih fun s hm => h s (List.mem_cons_of_mem _ hm)

/-- Absence among the enabled tools of every connected server makes the
`any` test fail. -/
theorem enabled_any_false (s : MCPServer) (n : String)
    (habs : s.status = "connected" → ∀ t ∈ s.tools, t.name = n → ¬ n ∈ s.enabledTools)
    (hc : s.status = "connected") :
    ((enabledToolsOf s).any fun t => t.name == n) = false := by
  rw [List.any_eq_false]
  intro t ht
  have hmem := List.mem_filter.mp ht
  intro hbeq
  have hname : t.name = n := by
    simpa using hbeq
  have hcont : t.name ∈ s.enabledTools := by
    have := hmem.2
    simpa [List.elem_iff] using this
  exact habs hc t hmem.1 hname (hname ▸ hcont)

/-- C6: a tool call whose name is not among the enabled tools of any
connected server yields the fixed "tool not found" result, for every
approval callback and every execution transport (neither is consulted). -/
theorem unknown_tool_not_found_no_approval (servers : List MCPServer) (tc : WireToolCall)
    (habsent : ∀ s ∈ servers, s.status = "connected" →
      ∀ t ∈ s.tools, t.name = tc.functionName → ¬ tc.functionName ∈ s.enabledTools) :
    ∀ approval exec jsonOk,
      processToolCall (buildToolMap servers) approval exec jsonOk tc =
        { role := "tool"
          content := ApiContent.str "Error: Tool not found or server disconnected."
          tool_call_id := some tc.id, name := some tc.functionName } := by
  intro approval exec jsonOk
  have hnone : buildToolMap servers tc.functionName = none := by
    apply buildToolMap_eq_none
    intro s hs
    rintro ⟨hc, hany⟩
    rw [enabled_any_false s tc.functionName (habsent s hs) hc] at hany
    exact Bool.false_ne_true hany
  simp [processToolCall, hnone]

/-- Witness for C6: a tool name no server exposes. -/
theorem unknown_tool_not_found_no_approval_witness :
    processToolCall (buildToolMap [sampleServer]) (fun _ _ => true)
        (fun _ _ _ => Except.ok "result-text") (fun _ => true) sampleTcUnknown =
      { role := "tool"
        content := ApiContent.str "Error: Tool not found or server disconnected."
        tool_call_id := some "b", name := some "ghost" } :=
  unknown_tool_not_found_no_approval [sampleServer] sampleTcUnknown (by decide)
    (fun _ _ => true) (fun _ _ _ => Except.ok "result-text") (fun _ => true)

/-- C7 (code evaluated at the failing input): a Gemini response with two
function-call parts mapped within one `Date.now()` millisecond gets two
tool calls with the same locally generated id, so the ids are not
pairwise distinct within the response. -/
theorem gemini_duplicate_tool_call_ids :
    ((parseGeminiResponse (fun _ => 1730000000000) geminiTwoCalls).2.getD []).map
        WireToolCall.id =
      ["gemini-1730000000000", "gemini-1730000000000"] ∧
    ¬ (((parseGeminiResponse (fun _ => 1730000000000) geminiTwoCalls).2.getD []).map
        WireToolCall.id).Nodup := by
  constructor
  · decide
  · decide

/-- C9: an empty credential for the active provider makes `sendMessage`
fail with the single configuration error, producing no messages, for
every provider oracle (no provider call is attempted, and the result does
not depend on the oracle). -/
theorem missing_key_throws_before_call (settings : AppSettings) (history : List Message)
    (currentMessage : String) (attachments : List Attachment) (env : Env)
    (oracle : Nat → Except String ProviderResponse) (hkey : keyOf settings = "") :
    sendMessage settings history currentMessage attachments env oracle =
      Except.error
        ("La API Key para " ++ providerIdStr settings.activeProvider ++
          " no está configurada.") ∧
    ∀ oracleB,
      sendMessage settings history currentMessage attachments env oracleB =
        sendMessage settings history currentMessage attachments env oracle := by
  constructor
  · simp [sendMessage, sendMessageCore, hkey]
  · intro oracleB
    simp [sendMessage, sendMessageCore, hkey]

/-- Witness for C9: Groq active with an empty key. -/
theorem missing_key_throws_before_call_witness :
    sendMessage sampleSettingsNoKey [] "2+2?" [] sampleEnv oracleFreeNow =
      Except.error "La API Key para groq no está configurada." :=
  (missing_key_throws_before_call sampleSettingsNoKey [] "2+2?" [] sampleEnv oracleFreeNow
      (by decide)).1

/-- C8 counterexample: a typed text part whose `text` field is the empty
string is flattened to its JSON serialization (the source tests `c.text`
for truthiness), not to its text field as the claim states. -/
theorem callTool_empty_text_part_cex :
    executeMCPToolCall c8Http sampleServer "search" (ToolArgs.parsed "\x7b\x7d") =
      Except.ok "\x7b\"type\":\"text\",\"text\":\"\"\x7d" ∧
    claimFlattenContent [c8Part] = "" ∧
    ("\x7b\"type\":\"text\",\"text\":\"\"\x7d" : String) ≠ "" :=
  ⟨rfl, by decide, by decide⟩

/-- C8 as amended: `executeMCPToolCall` rejects a non-2xx response with the
status and body, rejects a JSON-RPC `error` with its message, flattens a
typed-part `result.content` by newline-joining each part's non-empty text
field (empty or missing text contributes the part's JSON serialization),
and otherwise serializes the whole `result` (or, when `result` is absent,
the whole response); on parts with no empty-text field this flattening
agrees with the claim's description. -/
theorem callTool_behavior (http : McpRequest → McpHttpOutcome) (server : MCPServer)
    (toolName : String) (args : ToolArgs) :
    (∀ r, http (mcpRequestOf server toolName args) = McpHttpOutcome.response r →
      ¬(200 ≤ r.status ∧ r.status < 300) →
      executeMCPToolCall http server toolName args =
        Except.error ("MCP Server Error (" ++ toString r.status ++ "): " ++ r.bodyText)) ∧
    (∀ r d e, http (mcpRequestOf server toolName args) = McpHttpOutcome.response r →
      (200 ≤ r.status ∧ r.status < 300) → r.json = some d → d.error = some e →
      executeMCPToolCall http server toolName args = Except.error e.message) ∧
    (∀ r d res parts, http (mcpRequestOf server toolName args) = McpHttpOutcome.response r →
      (200 ≤ r.status ∧ r.status < 300) → r.json = some d → d.error = none →
      d.result = some res → res.content = some parts →
      executeMCPToolCall http server toolName args = Except.ok (flattenContent parts)) ∧
    (∀ r d res, http (mcpRequestOf server toolName args) = McpHttpOutcome.response r →
      (200 ≤ r.status ∧ r.status < 300) → r.json = some d → d.error = none →
      d.result = some res → res.content = none →
      executeMCPToolCall http server toolName args = Except.ok res.serialized) ∧
    (∀ r d, http (mcpRequestOf server toolName args) = McpHttpOutcome.response r →
      (200 ≤ r.status ∧ r.status < 300) → r.json = some d → d.error = none →
      d.result = none →
      executeMCPToolCall http server toolName args = Except.ok d.serialized) ∧
    (∀ parts : List MCPContentPart, (∀ c ∈ parts, c.text ≠ some "") →
      flattenContent parts = claimFlattenContent parts) := by
  refine ⟨?_, ?_, ?_, ?_, ?_, ?_⟩
  · intro r hr hnok
    simp [executeMCPToolCall, hr, hnok]
  · intro r d e hr hok hjson herr
    simp [executeMCPToolCall, hr, hok, hjson, herr]
  · intro r d res parts hr hok hjson herr hres hcont
    simp [executeMCPToolCall, hr, hok, hjson, herr, hres, hcont]
  · intro r d res hr hok hjson herr hres hcont
    simp [executeMCPToolCall, hr, hok, hjson, herr, hres, hcont]
  · intro r d hr hok hjson herr hres
    simp [executeMCPToolCall, hr, hok, hjson, herr, hres]
  · intro parts hne
    unfold flattenContent claimFlattenContent
    congr 1
    apply List.map_congr_left
    intro c hc
    cases ht : c.text with
    | none => simp
    | some t =>
      have : t ≠ "" := by
        intro h0
        exact hne c hc (by rw [ht, h0])
      simp [this]

/-- Witness for C8 at a concrete non-2xx response. -/
theorem callTool_behavior_witness :
    executeMCPToolCall
        (fun _ => McpHttpOutcome.response { status := 500, bodyText := "boom", json := none })
        sampleServer "search" ToolArgs.invalid =
      Except.error "MCP Server Error (500): boom" :=
  (callTool_behavior
        (fun _ => McpHttpOutcome.response { status := 500, bodyText := "boom", json := none })
        sampleServer "search" ToolArgs.invalid).1
    { status := 500, bodyText := "boom", json := none } rfl (by decide)

/-- A history message surviving the API conversion never has the system
role. -/
theorem msgToApi_role_ne_system (m : Message) (x : ApiMessage) (h : msgToApi m = some x) :
    x.role ≠ "system" := by
  intro hx
  cases hrole : m.role
  case user =>
    simp only [msgToApi, hrole, Option.some.injEq] at h
    subst h
    by_cases hatt : m.attachments.length > 0
    · rw [if_pos hatt] at hx
      exact (show ("user" : String) ≠ "system" by decide) hx
    · rw [if_neg hatt] at hx
      exact (show ("user" : String) ≠ "system" by decide) hx
  case model =>
    simp only [msgToApi, hrole, Option.some.injEq] at h
    subst h
    exact (show ("assistant" : String) ≠ "system" by decide) hx
  case tool =>
    simp only [msgToApi, hrole, Option.some.injEq] at h
    subst h
    exact (show ("tool" : String) ≠ "system" by decide) hx
  case system =>
    simp only [msgToApi, hrole] at h
    exact Option.noConfusion h
  case assistant =>
    simp only [msgToApi, hrole] at h
    exact Option.noConfusion h

/-- The synthesized system instruction is never the empty string: the
`||` default makes the prompt part non-empty. -/
theorem sysInstrOf_ne_empty (settings : AppSettings) : sysInstrOf settings ≠ "" := by
  unfold sysInstrOf jsOrStr
  intro h
  have hd := congrArg String.data h
  rw [String.data_append] at hd
  have h1 := List.append_eq_nil.mp hd
  by_cases hp : settings.systemPrompt = ""
  · rw [if_pos hp] at h1
    have : DEFAULT_SYSTEM_PROMPT.data ≠ [] := by decide
    exact this h1.1
  · rw [if_neg hp] at h1
    exact hp (congrArg String.mk h1.1)

/-- C10: in the wire payload, system-role messages of the input history are
dropped: the only system-role entry of the working history is the
synthesized instruction, Gemini's `systemInstruction` is exactly that
instruction, and every Gemini `contents` entry has role `user` or
`model`. -/
theorem single_system_instruction (settings : AppSettings) (history : List Message)
    (currentMessage : String) (attachments : List Attachment) (tools : List ToolDef) :
    ((buildApiMessages (sysInstrOf settings) history currentMessage attachments).filter
        fun m => m.role == "system") =
      [{ role := "system", content := ApiContent.str (sysInstrOf settings) }] ∧
    (buildGeminiRequest
          (buildApiMessages (sysInstrOf settings) history currentMessage attachments)
          tools).systemInstruction =
      some (ApiContent.str (sysInstrOf settings)) ∧
    ∀ c ∈ (buildGeminiRequest
          (buildApiMessages (sysInstrOf settings) history currentMessage attachments)
          tools).contents,
      c.role = "user" ∨ c.role = "model" := by
  have hfm : ∀ x ∈ history.filterMap msgToApi, ¬(x.role == "system") = true := by
    intro x hx hbeq
    obtain ⟨m, _, hm⟩ := List.mem_filterMap.mp hx
    exact msgToApi_role_ne_system m x hm (by simpa using hbeq)
  refine ⟨?_, ?_, ?_⟩
  · simp only [buildApiMessages, List.filter_cons, List.filter_append]
    have h1 : (("system" : String) == "system") = true := by decide
    have h2 : ((List.filterMap msgToApi history).filter fun m => m.role == "system") = [] :=
      List.filter_eq_nil_iff.mpr hfm
    have h3 : (("user" : String) == "system") = false := by decide
    simp [h1, h2, h3]
  · have hne : sysInstrOf settings ≠ "" := sysInstrOf_ne_empty settings
    simp [buildGeminiRequest, geminiSystemInstruction, buildApiMessages, List.find?, hne]
  · intro c hc
    simp only [buildGeminiRequest, List.mem_map] at hc
    obtain ⟨m, _, hm⟩ := hc
    rw [← hm]
    by_cases ha : m.role = "assistant" <;> simp [ha]

/-- Witness for C10 at concrete inputs: the filtered system entries of the
working history are exactly the synthesized instruction. -/
theorem single_system_instruction_witness :
    ((buildApiMessages (sysInstrOf sampleSettings) [] "2+2?" []).filter
        fun m => m.role == "system") =
      [{ role := "system", content := ApiContent.str (sysInstrOf sampleSettings) }] :=
  (single_system_instruction sampleSettings [] "2+2?" [] []).1

/-- Destructor for a tool-call-carrying outcome. -/
theorem respHasToolCalls_elim (p : Provider) (gclock : Nat → Nat)
    (r : Except String ProviderResponse) (h : respHasToolCalls p gclock r = true) :
    ∃ d content tcs, r = Except.ok d ∧
      parseTurn p gclock d = Except.ok (content, some tcs) ∧ tcs ≠ [] := by
  cases r with
  | error e => simp [respHasToolCalls] at h
  | ok d =>
    cases hp : parseTurn p gclock d with
    | error e => simp [respHasToolCalls, hp] at h
    | ok pr =>
      obtain ⟨content, tcOpt⟩ := pr
      simp only [respHasToolCalls, hp] at h
      cases tcOpt with
      | none => simp at h
      | some tcs =>
        simp only [Option.getD_some, decide_eq_true_eq] at h
        exact ⟨d, content, tcs, rfl, hp, List.ne_nil_of_length_pos h⟩

/-- Destructor for a tool-call-free outcome. -/
theorem respParsedFree_elim (p : Provider) (gclock : Nat → Nat)
    (r : Except String ProviderResponse) (h : respParsedFree p gclock r = true) :
    ∃ d content tcOpt, r = Except.ok d ∧
      parseTurn p gclock d = Except.ok (content, tcOpt) ∧ (tcOpt.getD []).length = 0 := by
  cases r with
  | error e => simp [respParsedFree] at h
  | ok d =>
    cases hp : parseTurn p gclock d with
    | error e => simp [respParsedFree, hp] at h
    | ok pr =>
      obtain ⟨content, tcOpt⟩ := pr
      simp only [respParsedFree, hp] at h
      simp only [decide_eq_true_eq] at h
      exact ⟨d, content, tcOpt, rfl, hp, h⟩

/-- One loop iteration on a response carrying tool calls: the assistant
message and one tool-result message per call are appended to the working
history handed to the next provider call. -/
theorem runLoop_tool_step (p : Provider) (model : String) (env : Env)
    (toolMap : String → Option MCPServer) (toolDefs : List ToolDef)
    (oracle : Nat → Except String ProviderResponse) (fuel callIdx : Nat)
    (api : List ApiMessage) (acc : List Message) (trace : List (List ApiMessage))
    (data : ProviderResponse) (content : String) (tcs : List WireToolCall)
    (hdata : oracle callIdx = Except.ok data)
    (hparse : parseTurn p env.gclock data = Except.ok (content, some tcs))
    (hne : tcs ≠ []) :
    runLoop p model env toolMap toolDefs oracle (fuel + 1) callIdx api acc trace =
      runLoop p model env toolMap toolDefs oracle fuel (callIdx + 1)
        (api ++
          ({ role := "assistant", content := ApiContent.str content,
              tool_calls := some tcs } : ApiMessage) ::
            tcs.map (processToolCall toolMap env.approval env.exec env.jsonOk))
        acc (trace ++ [api]) := by
  simp only [runLoop, hdata, hparse, Option.getD_some]
  rw [if_pos (List.length_pos.mpr hne)]

/-- One loop iteration on a tool-call-free response: the loop completes
with the final assistant message (built from the working history at this
call) appended, flagging `turns >= 5` exactly when this was the fifth
iteration. -/
theorem runLoop_free_step (p : Provider) (model : String) (env : Env)
    (toolMap : String → Option MCPServer) (toolDefs : List ToolDef)
    (oracle : Nat → Except String ProviderResponse) (fuel callIdx : Nat)
    (api : List ApiMessage) (acc : List Message) (trace : List (List ApiMessage))
    (data : ProviderResponse) (content : String) (tcOpt : Option (List WireToolCall))
    (hdata : oracle callIdx = Except.ok data)
    (hparse : parseTurn p env.gclock data = Except.ok (content, tcOpt))
    (hfree : (tcOpt.getD []).length = 0) :
    runLoop p model env toolMap toolDefs oracle (fuel + 1) callIdx api acc trace =
      Except.ok
        (acc ++
            [mkFinalMsg p model env.now (buildRequestPayload p model api toolDefs) data
                content],
          trace ++ [api], decide (fuel = 0)) := by
  simp only [runLoop, hdata, hparse]
  rw [if_neg (by omega)]

/-- One loop iteration on a failed provider call: the error propagates. -/
theorem runLoop_error_step (p : Provider) (model : String) (env : Env)
    (toolMap : String → Option MCPServer) (toolDefs : List ToolDef)
    (oracle : Nat → Except String ProviderResponse) (fuel callIdx : Nat)
    (api : List ApiMessage) (acc : List Message) (trace : List (List ApiMessage))
    (e : String) (hdata : oracle callIdx = Except.error e) :
    runLoop p model env toolMap toolDefs oracle (fuel + 1) callIdx api acc trace =
      Except.error e := by
  simp only [runLoop, hdata]

/-- One loop iteration on an unparseable response: the parse error
propagates. -/
theorem runLoop_parse_error_step (p : Provider) (model : String) (env : Env)
    (toolMap : String → Option MCPServer) (toolDefs : List ToolDef)
    (oracle : Nat → Except String ProviderResponse) (fuel callIdx : Nat)
    (api : List ApiMessage) (acc : List Message) (trace : List (List ApiMessage))
    (data : ProviderResponse) (e : String) (hdata : oracle callIdx = Except.ok data)
    (hparse : parseTurn p env.gclock data = Except.error e) :
    runLoop p model env toolMap toolDefs oracle (fuel + 1) callIdx api acc trace =
      Except.error e := by
  simp only [runLoop, hdata, hparse]

/-- The loop only consults the oracle at the call indices it can reach. -/
theorem runLoop_congr (p : Provider) (model : String) (env : Env)
    (toolMap : String → Option MCPServer) (toolDefs : List ToolDef)
    (oracle oracleB : Nat → Except String ProviderResponse) :
    ∀ fuel callIdx api acc trace,
      (∀ n, callIdx ≤ n → n < callIdx + fuel → oracleB n = oracle n) →
      runLoop p model env toolMap toolDefs oracleB fuel callIdx api acc trace =
        runLoop p model env toolMap toolDefs oracle fuel callIdx api acc trace := by
  intro fuel
  induction fuel with
  | zero => intro callIdx api acc trace _; rfl
  | succ f ih =>
    intro callIdx api acc trace h
    have h0 : oracleB callIdx = oracle callIdx := h callIdx (le_refl _) (by omega)
    cases hd : oracle callIdx with
    | error e =>
      rw [runLoop_error_step p model env toolMap toolDefs oracleB f callIdx api acc trace e
          (h0.trans hd),
        runLoop_error_step p model env toolMap toolDefs oracle f callIdx api acc trace e hd]
    | ok data =>
      cases hp : parseTurn p env.gclock data with
      | error e =>
        rw [runLoop_parse_error_step p model env toolMap toolDefs oracleB f callIdx api acc
            trace data e (h0.trans hd) hp,
          runLoop_parse_error_step p model env toolMap toolDefs oracle f callIdx api acc
            trace data e hd hp]
      | ok pr =>
        obtain ⟨content, tcOpt⟩ := pr
        rcases htc : tcOpt with _ | tcs
        · rw [htc] at hp
          rw [runLoop_free_step p model env toolMap toolDefs oracleB f callIdx api acc trace
              data content none (h0.trans hd) hp (by simp),
            runLoop_free_step p model env toolMap toolDefs oracle f callIdx api acc trace
              data content none hd hp (by simp)]
        · rw [htc] at hp
          by_cases hne : tcs = []
          · subst hne
            rw [runLoop_free_step p model env toolMap toolDefs oracleB f callIdx api acc
                trace data content (some []) (h0.trans hd) hp (by simp),
              runLoop_free_step p model env toolMap toolDefs oracle f callIdx api acc trace
                data content (some []) hd hp (by simp)]
          · rw [runLoop_tool_step p model env toolMap toolDefs oracleB f callIdx api acc
                trace data content tcs (h0.trans hd) hp hne,
              runLoop_tool_step p model env toolMap toolDefs oracle f callIdx api acc trace
                data content tcs hd hp hne]
            exact ih (callIdx + 1) _ acc (trace ++ [api]) fun n h1 h2 =>
              h n (by omega) (by omega)

/-- When every reachable response carries tool calls, the loop burns all
its fuel, generates no messages, performs one provider call per fuel unit,
and exits with the `turns >= 5` flag set. -/
theorem runLoop_all_tools (p : Provider) (model : String) (env : Env)
    (toolMap : String → Option MCPServer) (toolDefs : List ToolDef)
    (oracle : Nat → Except String ProviderResponse) :
    ∀ fuel callIdx api acc trace,
      (∀ n, callIdx ≤ n → n < callIdx + fuel →
        respHasToolCalls p env.gclock (oracle n) = true) →
      ∃ ext, runLoop p model env toolMap toolDefs oracle fuel callIdx api acc trace =
          Except.ok (acc, trace ++ ext, true) ∧ ext.length = fuel := by
  intro fuel
  induction fuel with
  | zero =>
    intro callIdx api acc trace _
    exact ⟨[], by simp [runLoop], rfl⟩
  | succ f ih =>
    intro callIdx api acc trace h
    obtain ⟨d, c, tcs, hd, hp, hne⟩ :=
      respHasToolCalls_elim _ _ _ (h callIdx (le_refl _) (by omega))
    rw [runLoop_tool_step p model env toolMap toolDefs oracle f callIdx api acc trace d c tcs
        hd hp hne]
    obtain ⟨ext, heq, hlen⟩ :=
      ih (callIdx + 1) _ acc (trace ++ [api]) fun n h1 h2 => h n (by omega) (by omega)
    refine ⟨api :: ext, ?_, by simp [hlen]⟩
    rw [heq]
    simp

/-- When the first tool-call-free response arrives at call index `i`, the
loop completes with exactly the one final assistant message appended, and
the `turns >= 5` flag is set exactly when `i` was the last fuelled call. -/
theorem runLoop_first_free (p : Provider) (model : String) (env : Env)
    (toolMap : String → Option MCPServer) (toolDefs : List ToolDef)
    (oracle : Nat → Except String ProviderResponse) :
    ∀ fuel callIdx api acc trace i, callIdx ≤ i → i < callIdx + fuel →
      (∀ n, callIdx ≤ n → n < i → respHasToolCalls p env.gclock (oracle n) = true) →
      respParsedFree p env.gclock (oracle i) = true →
      ∃ d c apiI tr, oracle i = Except.ok d ∧
        runLoop p model env toolMap toolDefs oracle fuel callIdx api acc trace =
          Except.ok
            (acc ++
                [mkFinalMsg p model env.now (buildRequestPayload p model apiI toolDefs) d c],
              tr, decide (i + 1 = callIdx + fuel)) := by
  intro fuel
  induction fuel with
  | zero => intro callIdx api acc trace i h1 h2 _ _; omega
  | succ f ih =>
    intro callIdx api acc trace i h1 h2 htc hfree
    by_cases hci : i = callIdx
    · subst hci
      obtain ⟨d, c, tcOpt, hd, hp, hlen⟩ := respParsedFree_elim _ _ _ hfree
      refine ⟨d, c, api, trace ++ [api], hd, ?_⟩
      rw [runLoop_free_step p model env toolMap toolDefs oracle f i api acc trace d c tcOpt
          hd hp hlen]
      have : (decide (f = 0)) = decide (i + 1 = i + (f + 1)) :=
        decide_eq_decide.mpr (by omega)
      rw [this]
    · have hlt : callIdx < i := lt_of_le_of_ne h1 (Ne.symm hci)
      obtain ⟨d0, c0, tcs0, hd0, hp0, hne0⟩ :=
        respHasToolCalls_elim _ _ _ (htc callIdx (le_refl _) hlt)
      rw [runLoop_tool_step p model env toolMap toolDefs oracle f callIdx api acc trace d0 c0
          tcs0 hd0 hp0 hne0]
      obtain ⟨d, c, apiI, tr, hd, heq⟩ :=
        ih (callIdx + 1) _ acc (trace ++ [api]) i (by omega) (by omega)
          (fun n ha hb => htc n (by omega) hb) hfree
      refine ⟨d, c, apiI, tr, hd, ?_⟩
      rw [heq]
      have : callIdx + 1 + f = callIdx + (f + 1) := by omega
      rw [this]

/-- C1: a provider response carrying `k ≥ 1` tool calls makes the loop
append, before the next provider call, the assistant message and exactly
`k` tool-role messages, processed sequentially in response order, the
i-th carrying `tool_call_id` equal to the i-th call's id. -/
theorem toolCalls_answered_in_order (p : Provider) (model : String) (env : Env)
    (toolMap : String → Option MCPServer) (toolDefs : List ToolDef)
    (oracle : Nat → Except String ProviderResponse) (fuel callIdx : Nat)
    (api : List ApiMessage) (acc : List Message) (trace : List (List ApiMessage))
    (data : ProviderResponse) (content : String) (tcs : List WireToolCall)
    (hdata : oracle callIdx = Except.ok data)
    (hparse : parseTurn p env.gclock data = Except.ok (content, some tcs))
    (hne : tcs ≠ []) :
    runLoop p model env toolMap toolDefs oracle (fuel + 1) callIdx api acc trace =
      runLoop p model env toolMap toolDefs oracle fuel (callIdx + 1)
        (api ++
          ({ role := "assistant", content := ApiContent.str content,
              tool_calls := some tcs } : ApiMessage) ::
            tcs.map (processToolCall toolMap env.approval env.exec env.jsonOk))
        acc (trace ++ [api]) ∧
    (tcs.map (processToolCall toolMap env.approval env.exec env.jsonOk)).length =
      tcs.length ∧
    (tcs.map (processToolCall toolMap env.approval env.exec env.jsonOk)).map
        ApiMessage.tool_call_id =
      tcs.map (fun tc => some tc.id) ∧
    ∀ msg ∈ tcs.map (processToolCall toolMap env.approval env.exec env.jsonOk),
      msg.role = "tool" := by
  refine ⟨runLoop_tool_step p model env toolMap toolDefs oracle fuel callIdx api acc trace
      data content tcs hdata hparse hne, List.length_map _ _, ?_, ?_⟩
  · rw [List.map_map]
    rfl
  · intro msg hmsg
    obtain ⟨tc, _, rfl⟩ := List.mem_map.mp hmsg
    rfl

/-- Witness for C1: the sample tool-call response yields one tool message
whose `tool_call_id` is the call's id. -/
theorem toolCalls_answered_in_order_witness :
    ([sampleTc].map
          (processToolCall (buildToolMap []) sampleEnv.approval sampleEnv.exec
            sampleEnv.jsonOk)).map
        ApiMessage.tool_call_id =
      [sampleTc].map (fun tc => some tc.id) :=
  (toolCalls_answered_in_order Provider.groq "llama3-8b-8192" sampleEnv (buildToolMap [])
      [] oracleAllTools 4 0 [] [] [] sampleToolResp "calling" [sampleTc] rfl rfl
      (by decide)).2.2.1

/-- C2: when every response carries at least one tool call, `sendMessage`
performs exactly 5 provider round trips, emits exactly the terminal
limit-reached message, and never consults the oracle past the fifth
call. -/
theorem turn_budget_exactly_five (settings : AppSettings) (history : List Message)
    (currentMessage : String) (attachments : List Attachment) (env : Env)
    (oracle : Nat → Except String ProviderResponse) (hkey : keyOf settings ≠ "")
    (htc : ∀ n, n < 5 →
      respHasToolCalls settings.activeProvider env.gclock (oracle n) = true) :
    sendMessage settings history currentMessage attachments env oracle =
      Except.ok [limitMsg env.now] ∧
    (∃ tr, sendMessageCore settings history currentMessage attachments env oracle =
        Except.ok ([], tr, true) ∧ tr.length = 5) ∧
    ∀ oracleB, (∀ n, n < 5 → oracleB n = oracle n) →
      sendMessage settings history currentMessage attachments env oracleB =
        sendMessage settings history currentMessage attachments env oracle := by
  obtain ⟨ext, heq, hlen⟩ :=
    runLoop_all_tools settings.activeProvider (modelOf settings) env
      (buildToolMap settings.mcpServers) (buildActiveToolDefs settings.mcpServers) oracle 5 0
      (buildApiMessages (sysInstrOf settings) history currentMessage attachments) [] []
      (fun n _ h2 => htc n (by omega))
  have hcore : sendMessageCore settings history currentMessage attachments env oracle =
      Except.ok ([], ext, true) := by
    unfold sendMessageCore
    rw [if_neg hkey, heq]
    simp
  refine ⟨?_, ⟨ext, hcore, hlen⟩, ?_⟩
  · unfold sendMessage
    rw [hcore]
    simp
  · intro oracleB hag
    unfold sendMessage sendMessageCore
    rw [runLoop_congr settings.activeProvider (modelOf settings) env
        (buildToolMap settings.mcpServers) (buildActiveToolDefs settings.mcpServers) oracle
        oracleB 5 0 _ [] [] (fun n _ h2 => hag n (by omega))]

/-- Witness for C2: a provider oracle that always requests a tool call. -/
theorem turn_budget_exactly_five_witness :
    sendMessage sampleSettings [] "2+2?" [] sampleEnv oracleAllTools =
      Except.ok [limitMsg 7] :=
  (turn_budget_exactly_five sampleSettings [] "2+2?" [] sampleEnv oracleAllTools (by decide)
      (by decide)).1

/-- C3 counterexample: with four tool-call responses followed by a
tool-call-free fifth response, the invocation emits two assistant-role
messages (the final answer and the limit message), not exactly one. -/
theorem final_on_fifth_turn_two_messages :
    respParsedFree Provider.groq sampleEnv.gclock (oracleFreeAtFifth 4) = true ∧
    (sendMessage sampleSettings [] "2+2?" [] sampleEnv oracleFreeAtFifth).map
        (fun l => l.map Message.content) =
      Except.ok [some "done", some "⚠️ Límite de ejecución de herramientas alcanzado."] ∧
    (sendMessage sampleSettings [] "2+2?" [] sampleEnv oracleFreeAtFifth).map
        (fun l => l.map Message.role) =
      Except.ok [Role.model, Role.model] := by
  refine ⟨by decide, rfl, rfl⟩

/-- C3 as amended: when the first tool-call-free response arrives within
the first four round trips, `sendMessage` emits exactly one new message —
the final assistant message carrying the response text (with the
provider-specific image augmentation), the reported usage counters, and
the debug envelope — and, the embedding being pure, the input history is
only read, never modified. -/
theorem single_assistant_message_before_cap (settings : AppSettings)
    (history : List Message) (currentMessage : String) (attachments : List Attachment)
    (env : Env) (oracle : Nat → Except String ProviderResponse) (i : Nat)
    (hkey : keyOf settings ≠ "") (hi : i < 4)
    (htc : ∀ n, n < i →
      respHasToolCalls settings.activeProvider env.gclock (oracle n) = true)
    (hfree : respParsedFree settings.activeProvider env.gclock (oracle i) = true) :
    ∃ d c apiI, oracle i = Except.ok d ∧
      sendMessage settings history currentMessage attachments env oracle =
        Except.ok
          [mkFinalMsg settings.activeProvider (modelOf settings) env.now
              (buildRequestPayload settings.activeProvider (modelOf settings) apiI
                (buildActiveToolDefs settings.mcpServers)) d c] := by
  obtain ⟨d, c, apiI, tr, hd, heq⟩ :=
    runLoop_first_free settings.activeProvider (modelOf settings) env
      (buildToolMap settings.mcpServers) (buildActiveToolDefs settings.mcpServers) oracle 5 0
      (buildApiMessages (sysInstrOf settings) history currentMessage attachments) [] [] i
      (by omega) (by omega) (fun n _ h2 => htc n h2) hfree
  refine ⟨d, c, apiI, hd, ?_⟩
  unfold sendMessage sendMessageCore
  rw [if_neg hkey, heq]
  have : (decide (i + 1 = 0 + 5)) = false := by
    rw [decide_eq_false_iff_not]
    omega
  rw [this]
  simp

/-- Witness for C3 (amended): a final answer on the very first call. -/
theorem single_assistant_message_before_cap_witness :
    ∃ d c apiI, oracleFreeNow 0 = Except.ok d ∧
      sendMessage sampleSettings [] "2+2?" [] sampleEnv oracleFreeNow =
        Except.ok
          [mkFinalMsg Provider.groq "llama3-8b-8192" 7
              (buildRequestPayload Provider.groq "llama3-8b-8192" apiI
                (buildActiveToolDefs sampleSettings.mcpServers)) d c] :=
  single_assistant_message_before_cap sampleSettings [] "2+2?" [] sampleEnv oracleFreeNow 0
    (by decide) (by decide) (by decide) (by decide)

end Nodemat
